import Mathlib

/-
Verification of the Autopilot-Account repository.

This development gives a shallow embedding of the two components the
specification's testable properties are about:

* the on-chain policy state machine `AutoYieldModule.sol` (an ERC-7579
  executor module), together with the `MorphoAdapter` yield-adapter
  semantics it drives through the account's `execute` capability; and
* the off-chain operation-encoding helpers of the bundler
  (`encodeNonceForValidator`, `packUint128`).

Addresses, tokens and adapters are modelled as natural numbers, with `0`
playing the role of the zero address ("none").  EVM-level machine integers
are `Nat` (all the arithmetic in the contract is on `uint256` and never
comes close to `2 ^ 256` in the scenarios of interest; `abi`-level byte
decoding is explicit and big-endian).  A reverting call is an
`Except.error`: the EVM rolls the whole call frame back, which the
embedding expresses by `runOp` keeping the pre-state whenever the
operation returns an error.
-/

namespace Autopilot

/-- Failure reasons.  The first six are the custom errors declared by
`AutoYieldModule.sol`; `ZeroAmount` and `InsufficientShares` are declared by
`MorphoAdapter.sol`; `TransferExceedsBalance` models the ERC-20 token
reverting a `transfer` whose amount exceeds the sender's balance, and
`AllowanceExceeded` models `safeTransferFrom` reverting for lack of
allowance. -/
inductive Err where
  | NotInitialized
  | AlreadyInitialized
  | InvalidAdapter
  | AdapterNotAllowed
  | InsufficientBalance
  | UnauthorizedCaller
  | ZeroAmount
  | InsufficientShares
  | TransferExceedsBalance
  | AllowanceExceeded
deriving DecidableEq, Repr

/-- Pointwise update of a one-key map. -/
def upd {β : Type} (f : Nat → β) (k : Nat) (v : β) : Nat → β :=
  fun x => if x = k then v else f x

/-- Pointwise update of a two-key map. -/
def upd2 {β : Type} (f : Nat → Nat → β) (k1 k2 : Nat) (v : β) : Nat → Nat → β :=
  fun x y => if x = k1 ∧ y = k2 then v else f x y

/-- Combined state: the storage of `AutoYieldModule` (five mappings, keyed by
account) together with the token balances (`liquid`, per account and token)
and the value of each account's position at each yield adapter (`yieldBal`,
per account and adapter, in asset units as reported by `totalValueOf`).
`asset` is the immutable underlying asset of each adapter
(`IYieldAdapter.asset()`); no operation ever changes it. -/
structure SysState where
  isInitialized : Nat → Bool
  checkingThreshold : Nat → Nat → Nat
  currentAdapter : Nat → Nat → Nat
  allowedAdapters : Nat → Nat → Bool
  automationKey : Nat → Nat
  asset : Nat → Nat
  liquid : Nat → Nat → Nat
  yieldBal : Nat → Nat → Nat

/-- Big-endian interpretation of a byte string as a natural number. -/
def bytesToNat (bs : List Nat) : Nat :=
  bs.foldl (fun acc b => acc * 256 + b) 0

/-- Big-endian encoding of `n` into exactly `k` bytes (truncating above
`256 ^ k`). -/
def natToBytes : Nat → Nat → List Nat
  | 0, _ => []
  | k + 1, n => natToBytes k (n / 256) ++ [n % 256]

/-- The four selector bytes of `IERC20.transfer`, `0xa9059cbb`. -/
def transferSelector : List Nat := [0xa9, 0x05, 0x9c, 0xbb]

/-- Calldata of `IERC20.transfer(recipient, amount)`: selector followed by
two 32-byte big-endian words. -/
def transferData (recipient amount : Nat) : List Nat :=
  transferSelector ++ natToBytes 32 recipient ++ natToBytes 32 amount

/-- Embedding of `AutoYieldModule._extractTransferAmount`: if the payload is
at least 68 bytes long and its 4-byte selector is the ERC-20 `transfer`
selector, return the amount decoded from bytes 36..68, otherwise 0.  The
`token` parameter of the Solidity function is unused there (the body reads
`token;` only) and is therefore dropped. -/
def extractTransferAmount (data : List Nat) : Nat :=
  if 68 ≤ data.length ∧ data.take 4 = transferSelector then
    bytesToNat ((data.drop 36).take 32)
  else 0

/-- Recipient address decoded from a `transfer` payload: the low 20 bytes of
the first argument word, i.e. bytes 16..36 of the calldata. -/
def transferRecipient (data : List Nat) : Nat :=
  bytesToNat ((data.drop 16).take 20)

/-- Embedding of the `onlyAccount` modifier body: reverts with
`UnauthorizedCaller` when `sender ≠ account`.  Every call site in the source
instantiates `account` with `msg.sender` itself. -/
def onlyAccountCheck (sender account : Nat) : Except Err Unit :=
  if sender ≠ account then .error .UnauthorizedCaller else .ok ()

/-- Embedding of the `onlyAuthorized` modifier body: reverts with
`UnauthorizedCaller` when the sender is neither the account nor its
automation key.  Every call site in the source instantiates `account` with
`msg.sender` itself. -/
def onlyAuthorizedCheck (s : SysState) (sender account : Nat) : Except Err Unit :=
  if sender ≠ account ∧ sender ≠ s.automationKey account then
    .error .UnauthorizedCaller
  else .ok ()

/-- Embedding of `AutoYieldModule._getYieldBalance`: the adapter's
`totalValueOf(account)` (the `try`/`catch` in the source returns 0 when the
adapter does not answer, which the total map subsumes). -/
def getYieldBalance (s : SysState) (account adapter : Nat) : Nat :=
  s.yieldBal account adapter

/-- Embedding of `AutoYieldModule._withdrawFromYield` composed with the
adapter's `withdraw` (`MorphoAdapter.withdraw`): reverts on a zero amount or
when the account's position is smaller than requested; otherwise moves
exactly `amount` from the yield position into the account's balance of the
adapter's asset. -/
def withdrawFromYield (s : SysState) (account adapter amount : Nat) :
    Except Err SysState :=
  if amount = 0 then .error .ZeroAmount
  else if s.yieldBal account adapter < amount then .error .InsufficientShares
  else
    .ok { s with
      yieldBal := upd2 s.yieldBal account adapter (s.yieldBal account adapter - amount),
      liquid := upd2 s.liquid account (s.asset adapter)
        (s.liquid account (s.asset adapter) + amount) }

/-- Embedding of `AutoYieldModule._depositToYield` composed with the
adapter's `deposit` (`MorphoAdapter.deposit`): the module approves `token`
and the adapter pulls its own asset, so the call reverts when the adapter's
asset is not `token` (no allowance), on a zero amount, or when the account's
balance is smaller than `amount`; otherwise it moves `amount` from the
account's token balance into the yield position. -/
def depositToYield (s : SysState) (account adapter token amount : Nat) :
    Except Err SysState :=
  if amount = 0 then .error .ZeroAmount
  else if s.asset adapter ≠ token then .error .AllowanceExceeded
  else if s.liquid account token < amount then .error .InsufficientBalance
  else
    .ok { s with
      liquid := upd2 s.liquid account token (s.liquid account token - amount),
      yieldBal := upd2 s.yieldBal account adapter (s.yieldBal account adapter + amount) }

/-- Embedding of the embedded `IKernel(account).execute(to, value, data)`
step of `executeWithAutoYield`.  When the payload is an ERC-20 `transfer` on
the token contract `to`, the account's balance decreases and the recipient's
increases, reverting when the balance is insufficient.  A payload that is
not an ERC-20 transfer is modelled as leaving the tracked token balances
unchanged (the ETH `value` is not tracked). -/
def execCall (s : SysState) (account toAddr value : Nat) (data : List Nat) :
    Except Err SysState :=
  if 68 ≤ data.length ∧ data.take 4 = transferSelector then
    let amt := bytesToNat ((data.drop 36).take 32)
    let rcp := transferRecipient data
    if s.liquid account toAddr < amt then .error .TransferExceedsBalance
    else
      let l1 := upd2 s.liquid account toAddr (s.liquid account toAddr - amt)
      let l2 := upd2 l1 rcp toAddr (l1 rcp toAddr + amt)
      .ok { s with liquid := l2 }
  else
    let _ := value
    .ok s

/-- Embedding of `AutoYieldModule.onInstall`, called with the account as
`msg.sender` and the decoded `(defaultAdapter, automationKey,
initialThreshold)`. -/
def onInstall (s : SysState) (sender defaultAdapter autoKey initialThreshold : Nat) :
    Except Err SysState :=
  if s.isInitialized sender then .error .AlreadyInitialized
  else if defaultAdapter = 0 then .error .InvalidAdapter
  else
    let usdc := s.asset defaultAdapter
    .ok { s with
      isInitialized := upd s.isInitialized sender true,
      automationKey := upd s.automationKey sender autoKey,
      allowedAdapters := upd2 s.allowedAdapters sender defaultAdapter true,
      currentAdapter := upd2 s.currentAdapter sender usdc defaultAdapter,
      checkingThreshold := upd2 s.checkingThreshold sender usdc initialThreshold }

/-- Embedding of `AutoYieldModule.onUninstall`. -/
def onUninstall (s : SysState) (sender : Nat) : Except Err SysState :=
  .ok { s with isInitialized := upd s.isInitialized sender false }

/-- The unstake phase of `executeWithAutoYield` (everything before the
embedded call): when the balance is below `amountNeeded + threshold` and an
adapter is configured and funded, withdraw the deficit capped at the yield
balance. -/
def autoYieldUnstake (s : SysState) (account token amountNeeded : Nat) :
    Except Err SysState :=
  let threshold := s.checkingThreshold account token
  let adapter := s.currentAdapter account token
  let checking := s.liquid account token
  let required := amountNeeded + threshold
  if checking < required ∧ adapter ≠ 0 then
    let deficit := required - checking
    let yieldBalance := getYieldBalance s account adapter
    if 0 < yieldBalance then
      withdrawFromYield s account adapter
        (if yieldBalance < deficit then yieldBalance else deficit)
    else .ok s
  else .ok s

/-- Embedding of `AutoYieldModule.executeWithAutoYield` (no modifier in the
source; `account` is `msg.sender`): extract the transfer amount from the
payload, unstake the deficit, run the embedded call, then deposit any
surplus above the threshold back into the adapter. -/
def executeWithAutoYield (s : SysState) (sender token toAddr value : Nat)
    (data : List Nat) : Except Err SysState :=
  let account := sender
  if ¬ s.isInitialized account then .error .NotInitialized
  else
    let threshold := s.checkingThreshold account token
    let adapter := s.currentAdapter account token
    match autoYieldUnstake s account token (extractTransferAmount data) with
    | .error e => .error e
    | .ok s1 =>
      match execCall s1 account toAddr value data with
      | .error e => .error e
      | .ok s2 =>
        let newChecking := s2.liquid account token
        if threshold < newChecking ∧ adapter ≠ 0 then
          depositToYield s2 account adapter token (newChecking - threshold)
        else .ok s2

/-- Embedding of `AutoYieldModule.rebalance` (modifier
`onlyAuthorized(msg.sender)`). -/
def rebalance (s : SysState) (sender token : Nat) : Except Err SysState :=
  match onlyAuthorizedCheck s sender sender with
  | .error e => .error e
  | .ok _ =>
    let account := sender
    if ¬ s.isInitialized account then .error .NotInitialized
    else
      let threshold := s.checkingThreshold account token
      let adapter := s.currentAdapter account token
      if adapter = 0 then .ok s
      else
        let checking := s.liquid account token
        if threshold < checking then
          depositToYield s account adapter token (checking - threshold)
        else .ok s

/-- The deposit-and-switch tail of `migrateStrategy` (everything after the
withdraw-all phase): deposit the surplus above the threshold into the new
adapter, then point `currentAdapter` at it. -/
def migrateDeposit (s1 : SysState) (account token newAdapter : Nat) :
    Except Err SysState :=
  let threshold := s1.checkingThreshold account token
  let checking := s1.liquid account token
  let w2 : Except Err SysState :=
    if threshold < checking then
      depositToYield s1 account newAdapter token (checking - threshold)
    else .ok s1
  match w2 with
  | .error e => .error e
  | .ok s2 =>
    .ok { s2 with
      currentAdapter := upd2 s2.currentAdapter account token newAdapter }

/-- Embedding of `AutoYieldModule.migrateStrategy` (modifier
`onlyAuthorized(msg.sender)`). -/
def migrateStrategy (s : SysState) (sender token newAdapter : Nat) :
    Except Err SysState :=
  match onlyAuthorizedCheck s sender sender with
  | .error e => .error e
  | .ok _ =>
    let account := sender
    if ¬ s.isInitialized account then .error .NotInitialized
    else if ¬ s.allowedAdapters account newAdapter then .error .AdapterNotAllowed
    else
      let oldAdapter := s.currentAdapter account token
      if oldAdapter = newAdapter then .ok s
      else
        let w1 : Except Err SysState :=
          if oldAdapter ≠ 0 then
            let yb := getYieldBalance s account oldAdapter
            if 0 < yb then withdrawFromYield s account oldAdapter yb else .ok s
          else .ok s
        match w1 with
        | .error e => .error e
        | .ok s1 => migrateDeposit s1 account token newAdapter

/-- Embedding of `AutoYieldModule.flushToChecking` (modifier
`onlyAccount(msg.sender)`): withdraw the whole yield balance; the source
does not touch `currentAdapter`. -/
def flushToChecking (s : SysState) (sender token : Nat) : Except Err SysState :=
  match onlyAccountCheck sender sender with
  | .error e => .error e
  | .ok _ =>
    let account := sender
    let adapter := s.currentAdapter account token
    if adapter ≠ 0 then
      let yb := getYieldBalance s account adapter
      if 0 < yb then withdrawFromYield s account adapter yb else .ok s
    else .ok s

/-- Embedding of `AutoYieldModule.setCheckingThreshold` (modifier
`onlyAccount(msg.sender)`). -/
def setCheckingThreshold (s : SysState) (sender token threshold : Nat) :
    Except Err SysState :=
  match onlyAccountCheck sender sender with
  | .error e => .error e
  | .ok _ =>
    .ok { s with checkingThreshold := upd2 s.checkingThreshold sender token threshold }

/-- Embedding of `AutoYieldModule.setCurrentAdapter` (modifier
`onlyAccount(msg.sender)`). -/
def setCurrentAdapter (s : SysState) (sender token adapter : Nat) :
    Except Err SysState :=
  match onlyAccountCheck sender sender with
  | .error e => .error e
  | .ok _ =>
    if adapter ≠ 0 ∧ ¬ s.allowedAdapters sender adapter then
      .error .AdapterNotAllowed
    else
      .ok { s with currentAdapter := upd2 s.currentAdapter sender token adapter }

/-- Embedding of `AutoYieldModule.setAdapterAllowed` (modifier
`onlyAccount(msg.sender)`). -/
def setAdapterAllowed (s : SysState) (sender adapter : Nat) (allowed : Bool) :
    Except Err SysState :=
  match onlyAccountCheck sender sender with
  | .error e => .error e
  | .ok _ =>
    .ok { s with allowedAdapters := upd2 s.allowedAdapters sender adapter allowed }

/-- Embedding of `AutoYieldModule.setAutomationKey` (modifier
`onlyAccount(msg.sender)`). -/
def setAutomationKey (s : SysState) (sender key : Nat) : Except Err SysState :=
  match onlyAccountCheck sender sender with
  | .error e => .error e
  | .ok _ =>
    .ok { s with automationKey := upd s.automationKey sender key }

/-- EVM revert semantics: the post-state of a call, where a reverting call
rolls the state back. -/
def runOp (s : SysState) (op : SysState → Except Err SysState) : SysState :=
  match op s with
  | .ok s1 => s1
  | .error _ => s

/-- Whether a call completed without reverting. -/
def isOk (r : Except Err SysState) : Bool :=
  match r with
  | .ok _ => true
  | .error _ => false

/-- Concrete one-account scenario state used by the testable-property
scenarios: account `1` is initialized with threshold `100` on token `7`,
current adapter `5` (whitelisted, asset `7`), automation key `2`, a liquid
balance of `liquid0` and a yield position of `yield0`. -/
def mkState (liquid0 yield0 : Nat) : SysState where
  isInitialized := fun a => decide (a = 1)
  checkingThreshold := fun _ _ => 100
  currentAdapter := fun a t => if a = 1 ∧ t = 7 then 5 else 0
  allowedAdapters := fun a d => decide (a = 1 ∧ d = 5)
  automationKey := fun a => if a = 1 then 2 else 0
  asset := fun _ => 7
  liquid := fun a t => if a = 1 ∧ t = 7 then liquid0 else 0
  yieldBal := fun a d => if a = 1 ∧ d = 5 then yield0 else 0

/-- Policy-state equality at one account: the five `AutoYieldModule`
mappings agree at `A`. -/
def policyEq (s t : SysState) (A : Nat) : Prop :=
  t.isInitialized A = s.isInitialized A ∧
  (∀ tok, t.checkingThreshold A tok = s.checkingThreshold A tok) ∧
  (∀ tok, t.currentAdapter A tok = s.currentAdapter A tok) ∧
  (∀ ad, t.allowedAdapters A ad = s.allowedAdapters A ad) ∧
  t.automationKey A = s.automationKey A

/-- The adapter-whitelist invariant of the specification: every configured
current adapter is whitelisted. -/
def adapterInv (s : SysState) : Prop :=
  ∀ account token, s.currentAdapter account token ≠ 0 →
    s.allowedAdapters account (s.currentAdapter account token) = true

/-- Environment facts for the threshold analysis of one account `A` and one
token: the account is initialized, a current adapter is configured, its
underlying asset is the token, and every whitelisted adapter is a real
adapter for this token. -/
def goodEnv (s : SysState) (A token : Nat) : Prop :=
  s.isInitialized A = true ∧
  s.currentAdapter A token ≠ 0 ∧
  s.asset (s.currentAdapter A token) = token ∧
  (∀ a, s.allowedAdapters A a = true → a ≠ 0 ∧ s.asset a = token)

/-- Only the current adapter holds a yield position for `A` (true from
installation on, since deposits only ever target the current adapter and a
migration empties the old one). -/
def onlyCurrentFunded (s : SysState) (A token : Nat) : Prop :=
  ∀ a, a ≠ s.currentAdapter A token → s.yieldBal A a = 0

/-- The threshold invariant in its inductive (weak) form.  The disjunct
`Y = 0 ∧ T ≤ L` is the "no surplus/deficit adjustment was possible yet"
case: it holds of a freshly installed account and survives only the
documented no-op calls (a `migrateStrategy` to the current adapter). -/
def thresholdInvW (s : SysState) (A token : Nat) : Prop :=
  (s.checkingThreshold A token
      ≤ s.liquid A token + s.yieldBal A (s.currentAdapter A token) →
    (s.liquid A token = s.checkingThreshold A token ∨
      (s.yieldBal A (s.currentAdapter A token) = 0 ∧
        s.checkingThreshold A token ≤ s.liquid A token))) ∧
  (s.liquid A token + s.yieldBal A (s.currentAdapter A token)
      < s.checkingThreshold A token →
    (s.liquid A token
        = s.liquid A token + s.yieldBal A (s.currentAdapter A token) ∧
      s.yieldBal A (s.currentAdapter A token) = 0))

/-- The threshold invariant in the strict form of the specification: when
total funds reach the threshold the liquid balance is exactly the
threshold, and otherwise all funds are liquid. -/
def thresholdInvS (s : SysState) (A token : Nat) : Prop :=
  (s.checkingThreshold A token
      ≤ s.liquid A token + s.yieldBal A (s.currentAdapter A token) →
    s.liquid A token = s.checkingThreshold A token) ∧
  (s.liquid A token + s.yieldBal A (s.currentAdapter A token)
      < s.checkingThreshold A token →
    (s.liquid A token
        = s.liquid A token + s.yieldBal A (s.currentAdapter A token) ∧
      s.yieldBal A (s.currentAdapter A token) = 0))

/-- All invariant machinery for the threshold analysis bundled up. -/
def invBundle (s : SysState) (A token : Nat) : Prop :=
  goodEnv s A token ∧ onlyCurrentFunded s A token ∧ thresholdInvW s A token

/-- One call of a threshold-relevant sequence: a spend through
`executeWithAutoYield` with an ERC-20 transfer payload on the token, a
`rebalance`, or a `migrateStrategy`. -/
inductive YieldOp where
  | spend (recipient amount : Nat)
  | rebal
  | migrate (newAdapter : Nat)

/-- Well-formedness of one call: a spend carries a 256-bit amount and a
well-formed recipient address distinct from the account. -/
def wfOp (A : Nat) : YieldOp → Prop
  | .spend r amt => amt < 2 ^ 256 ∧ r < 2 ^ 160 ∧ r ≠ A
  | .rebal => True
  | .migrate _ => True

/-- Apply one call for account `A` on `token` (the account itself is the
caller, as every call arrives through the account's kernel). -/
def applyOp (A token : Nat) (s : SysState) : YieldOp → Except Err SysState
  | .spend r amt => executeWithAutoYield s A token token 0 (transferData r amt)
  | .rebal => rebalance s A token
  | .migrate a => migrateStrategy s A token a

/-- Run a sequence of calls, stopping at the first revert. -/
def runSeq (A token : Nat) : SysState → List YieldOp → Except Err SysState
  | s, [] => .ok s
  | s, op :: rest =>
    match applyOp A token s op with
    | .error e => .error e
    | .ok s1 => runSeq A token s1 rest

/-- Embedding of the bundler's `encodeNonceForValidator` (both copies in
the source compute the same word; this follows the fully spelled-out first
copy, whose `key` and `mode` contributions are zero): the Kernel v3 nonce
packs the 64-bit sequence, the validator address at bit 80 and the
secondary-validator type tag at bit 240 into one 256-bit word. -/
def encodeNonceForValidator (validatorAddr sequentialNonce : Nat) : Nat :=
  let mode := 0x00
  let vType := 0x01
  let key := 0
  sequentialNonce |||
    (key <<< 64) |||
    (validatorAddr <<< 80) |||
    (vType <<< 240) |||
    (mode <<< 248)

/-- Modelled from the viem library used by the source: `pad(toHex n, size
16)` yields the 16-byte big-endian encoding of `n` and raises a
`SizeExceedsPaddingSizeError` (here `none`) when `n` does not fit in 16
bytes. -/
def padHex16 (n : Nat) : Option (List Nat) :=
  if n < 2 ^ 128 then some (natToBytes 16 n) else none

/-- Embedding of the bundler's `packUint128`: concatenate the two 16-byte
paddings, high half first. -/
def packUint128 (high low : Nat) : Option (List Nat) :=
  match padHex16 high, padHex16 low with
  | some h, some l => some (h ++ l)
  | _, _ => none

/-- Equality of everything except the balance maps: the module's
configuration storage and the adapters' assets agree. -/
def sameConfig (s t : SysState) : Prop :=
  t.isInitialized = s.isInitialized ∧
  t.checkingThreshold = s.checkingThreshold ∧
  t.currentAdapter = s.currentAdapter ∧
  t.allowedAdapters = s.allowedAdapters ∧
  t.automationKey = s.automationKey ∧
  t.asset = s.asset

theorem upd_self {β : Type} (f : Nat → β) (k : Nat) (v : β) : upd f k v k = v := by
  simp [upd]

theorem upd_ne {β : Type} (f : Nat → β) {k x : Nat} (v : β) (h : x ≠ k) :
    upd f k v x = f x := by
  simp [upd, h]

theorem upd2_self {β : Type} (f : Nat → Nat → β) (a b : Nat) (v : β) :
    upd2 f a b v a b = v := by
  simp [upd2]

theorem upd2_ne {β : Type} (f : Nat → Nat → β) {a b x y : Nat} (v : β)
    (h : ¬(x = a ∧ y = b)) : upd2 f a b v x y = f x y := by
  simp only [upd2, if_neg h]

theorem length_natToBytes (k : Nat) : ∀ n, (natToBytes k n).length = k := by
  induction k with
  | zero => intro n; simp [natToBytes]
  | succ k ih => intro n; simp [natToBytes, ih]

theorem foldl_bytes_shift (ys : List Nat) : ∀ a : Nat,
    ys.foldl (fun acc b => acc * 256 + b) a = a * 256 ^ ys.length + bytesToNat ys := by
  induction ys with
  | nil => intro a; simp [bytesToNat]
  | cons y ys ih =>
    intro a
    simp only [List.foldl_cons, List.length_cons, bytesToNat] at *
    rw [ih (a * 256 + y), ih (0 * 256 + y)]
    ring

theorem bytesToNat_append (xs ys : List Nat) :
    bytesToNat (xs ++ ys) = bytesToNat xs * 256 ^ ys.length + bytesToNat ys := by
  unfold bytesToNat
  rw [List.foldl_append]
  exact foldl_bytes_shift ys _

theorem bytesToNat_natToBytes (k : Nat) : ∀ n, bytesToNat (natToBytes k n) = n % 256 ^ k := by
  induction k with
  | zero => intro n; simp [natToBytes, bytesToNat, Nat.mod_one]
  | succ k ih =>
    intro n
    rw [natToBytes, bytesToNat_append, ih]
    simp only [bytesToNat, List.length_cons, List.length_nil, List.foldl_cons,
      List.foldl_nil, pow_one, pow_succ']
    rw [Nat.mod_mul]
    ring

theorem natToBytes_split (j k : Nat) : ∀ n,
    natToBytes (j + k) n = natToBytes j (n / 256 ^ k) ++ natToBytes k (n % 256 ^ k) := by
  induction k with
  | zero => intro n; simp [natToBytes, Nat.mod_one]
  | succ k ih =>
    intro n
    have hj : j + (k + 1) = (j + k) + 1 := by omega
    rw [hj, natToBytes, ih (n / 256)]
    have h1 : n / 256 / 256 ^ k = n / 256 ^ (k + 1) := by
      rw [Nat.div_div_eq_div_mul, pow_succ']
    have h2 : n / 256 % 256 ^ k = n % 256 ^ (k + 1) / 256 := by
      rw [pow_succ', Nat.mod_mul_right_div_self]
    have h3 : n % 256 = n % 256 ^ (k + 1) % 256 := by
      rw [Nat.mod_mod_of_dvd n (dvd_pow_self 256 (Nat.succ_ne_zero k))]
    rw [h1, h2, h3, natToBytes, List.append_assoc]

theorem take_append_len (xs ys : List Nat) (k : Nat) (h : xs.length = k) :
    (xs ++ ys).take k = xs := by
  subst h
  exact List.take_left xs ys

theorem drop_append_len (xs ys : List Nat) (k : Nat) (h : xs.length = k) :
    (xs ++ ys).drop k = ys := by
  subst h
  exact List.drop_left xs ys

theorem length_transferData (r a : Nat) : (transferData r a).length = 68 := by
  simp [transferData, transferSelector, length_natToBytes]

theorem take4_transferData (r a : Nat) :
    (transferData r a).take 4 = transferSelector := by
  simp [transferData, transferSelector]

theorem extract_transferData (r a : Nat) (h : a < 2 ^ 256) :
    extractTransferAmount (transferData r a) = a := by
  unfold extractTransferAmount
  rw [if_pos ⟨le_of_eq (length_transferData r a).symm, take4_transferData r a⟩]
  have h36 : (transferSelector ++ natToBytes 32 r).length = 36 := by
    simp [transferSelector, length_natToBytes]
  have : transferData r a = (transferSelector ++ natToBytes 32 r) ++ natToBytes 32 a := by
    simp [transferData, List.append_assoc]
  rw [this, drop_append_len _ _ _ h36]
  rw [List.take_of_length_le (le_of_eq (length_natToBytes 32 a)), bytesToNat_natToBytes]
  have : (256 : Nat) ^ 32 = 2 ^ 256 := by norm_num
  rw [this]
  exact Nat.mod_eq_of_lt h

theorem recipient_transferData (r a : Nat) (h : r < 2 ^ 160) :
    transferRecipient (transferData r a) = r := by
  unfold transferRecipient
  have hsplit : natToBytes 32 r
      = natToBytes 12 (r / 256 ^ 20) ++ natToBytes 20 (r % 256 ^ 20) := by
    have : (32 : Nat) = 12 + 20 := by norm_num
    rw [this, natToBytes_split]
  have h16 : (transferSelector ++ natToBytes 12 (r / 256 ^ 20)).length = 16 := by
    simp [transferSelector, length_natToBytes]
  have hdata : transferData r a
      = (transferSelector ++ natToBytes 12 (r / 256 ^ 20))
        ++ (natToBytes 20 (r % 256 ^ 20) ++ natToBytes 32 a) := by
    simp [transferData, hsplit, List.append_assoc]
  rw [hdata, drop_append_len _ _ _ h16]
  rw [take_append_len _ _ _ (length_natToBytes 20 _), bytesToNat_natToBytes,
    Nat.mod_mod_of_dvd _ dvd_rfl]
  have h160 : (256 : Nat) ^ 20 = 2 ^ 160 := by norm_num
  rw [h160]
  exact Nat.mod_eq_of_lt h

theorem decode_amount_transferData (r a : Nat) (h : a < 2 ^ 256) :
    bytesToNat (((transferData r a).drop 36).take 32) = a := by
  have he := extract_transferData r a h
  unfold extractTransferAmount at he
  rwa [if_pos ⟨le_of_eq (length_transferData r a).symm, take4_transferData r a⟩] at he

theorem sameConfig_refl (s : SysState) : sameConfig s s :=
  ⟨rfl, rfl, rfl, rfl, rfl, rfl⟩

theorem sameConfig_trans {s t u : SysState} (h1 : sameConfig s t)
    (h2 : sameConfig t u) : sameConfig s u := by
  obtain ⟨hgi, hgt, hgc, hga, hgk, hgs⟩ := h1
  obtain ⟨hfi, hft, hfc, hfa, hfk, hfs⟩ := h2
  refine ⟨hfi.trans hgi, hft.trans hgt, hfc.trans hgc, ?_, ?_, ?_⟩
  · exact hfa.trans hga
  · exact hfk.trans hgk
  · exact hfs.trans hgs

theorem goodEnv_of_sameConfig {s t : SysState} {A token : Nat}
    (hc : sameConfig s t) (h : goodEnv s A token) : goodEnv t A token := by
  obtain ⟨c1, c2, c3, c4, c5, c6⟩ := hc
  unfold goodEnv at h ⊢
  rw [c1, c3, c4, c6]
  exact h

theorem adapterInv_of_sameConfig {s t : SysState}
    (hc : sameConfig s t) (h : adapterInv s) : adapterInv t := by
  obtain ⟨c1, c2, c3, c4, c5, c6⟩ := hc
  unfold adapterInv at h ⊢
  rw [c3, c4]
  exact h

theorem withdraw_ok {s s1 : SysState} {a ad amt : Nat}
    (h : withdrawFromYield s a ad amt = .ok s1) :
    0 < amt ∧ amt ≤ s.yieldBal a ad ∧
    s1.liquid = upd2 s.liquid a (s.asset ad) (s.liquid a (s.asset ad) + amt) ∧
    s1.yieldBal = upd2 s.yieldBal a ad (s.yieldBal a ad - amt) ∧
    sameConfig s s1 := by
  unfold withdrawFromYield at h
  split at h
  · cases h
  · split at h
    · cases h
    · cases h
      exact ⟨by omega, by omega, rfl, rfl, sameConfig_refl s⟩

theorem deposit_ok {s s1 : SysState} {a ad tok amt : Nat}
    (h : depositToYield s a ad tok amt = .ok s1) :
    0 < amt ∧ s.asset ad = tok ∧ amt ≤ s.liquid a tok ∧
    s1.liquid = upd2 s.liquid a tok (s.liquid a tok - amt) ∧
    s1.yieldBal = upd2 s.yieldBal a ad (s.yieldBal a ad + amt) ∧
    sameConfig s s1 := by
  unfold depositToYield at h
  split at h
  · cases h
  · split at h
    · cases h
    · split at h
      · cases h
      · cases h
        refine ⟨by omega, by tauto, by omega, rfl, rfl, sameConfig_refl s⟩

theorem execCall_transferData (s : SysState) (a toAddr v r amt : Nat)
    (hamt : amt < 2 ^ 256) (hr : r < 2 ^ 160) :
    execCall s a toAddr v (transferData r amt)
      = if s.liquid a toAddr < amt then .error .TransferExceedsBalance
        else .ok { s with liquid := upd2 (upd2 s.liquid a toAddr (s.liquid a toAddr - amt)) r toAddr ((upd2 s.liquid a toAddr (s.liquid a toAddr - amt)) r toAddr + amt) } := by
  unfold execCall
  rw [if_pos ⟨le_of_eq (length_transferData r amt).symm, take4_transferData r amt⟩]
  simp only [decode_amount_transferData r amt hamt, recipient_transferData r amt hr]

theorem execCall_ok_transfer {s s1 : SysState} {a toAddr v r amt : Nat}
    (hamt : amt < 2 ^ 256) (hr : r < 2 ^ 160)
    (h : execCall s a toAddr v (transferData r amt) = .ok s1) :
    amt ≤ s.liquid a toAddr ∧
    s1.liquid = upd2 (upd2 s.liquid a toAddr (s.liquid a toAddr - amt)) r toAddr
      ((upd2 s.liquid a toAddr (s.liquid a toAddr - amt)) r toAddr + amt) ∧
    s1.yieldBal = s.yieldBal ∧
    sameConfig s s1 := by
  rw [execCall_transferData s a toAddr v r amt hamt hr] at h
  split at h
  · cases h
  · cases h
    exact ⟨by omega, rfl, rfl, sameConfig_refl s⟩

theorem thresholdInvW_of_S {s : SysState} {A token : Nat}
    (h : thresholdInvS s A token) : thresholdInvW s A token :=
  ⟨fun ht => Or.inl (h.1 ht), h.2⟩

theorem rebal_step {A token : Nat} {s s1 : SysState}
    (hb : invBundle s A token) (h : rebalance s A token = .ok s1) :
    invBundle s1 A token ∧ thresholdInvS s1 A token := by
  obtain ⟨henv, hfund, hW⟩ := hb
  obtain ⟨hinit, had, hasset, hwl⟩ := henv
  simp only [rebalance] at h
  split at h
  next e heq =>
    unfold onlyAuthorizedCheck at heq
    simp at heq
  next u heq =>
    clear heq
    rw [if_neg (not_not_intro hinit)] at h
    rw [if_neg had] at h
    split at h
    next hgt =>
      obtain ⟨hpos, hassetEq, hle, hliq, hyb, hcfg⟩ := deposit_ok h
      have hL1 : s1.liquid A token = s.checkingThreshold A token := by
        rw [hliq]
        simp [upd2]
        omega
      have hY1 : s1.yieldBal A (s.currentAdapter A token)
          = s.yieldBal A (s.currentAdapter A token)
            + (s.liquid A token - s.checkingThreshold A token) := by
        rw [hyb]
        simp [upd2]
      have had1 : s1.currentAdapter A token = s.currentAdapter A token := by
        rw [hcfg.2.2.1]
      have hT1 : s1.checkingThreshold A token = s.checkingThreshold A token := by
        rw [hcfg.2.1]
      have hS : thresholdInvS s1 A token := by
        unfold thresholdInvS
        rw [had1, hT1, hL1, hY1]
        constructor
        · intro _; rfl
        · intro hlt; omega
      refine ⟨⟨goodEnv_of_sameConfig hcfg ⟨hinit, had, hasset, hwl⟩, ?_, thresholdInvW_of_S hS⟩, hS⟩
      intro a ha
      rw [had1] at ha
      have hne : ¬(A = A ∧ a = s.currentAdapter A token) := fun hc => ha hc.2
      rw [hyb, upd2_ne _ _ hne]
      exact hfund a ha
    next hle =>
      cases h
      have hS : thresholdInvS s A token := by
        unfold thresholdInvS
        constructor
        · intro ht
          rcases hW.1 ht with h1 | h2
          · exact h1
          · omega
        · exact hW.2
      exact ⟨⟨⟨hinit, had, hasset, hwl⟩, hfund, hW⟩, hS⟩

theorem migrate_leaf {A token a : Nat} {s s1 : SysState}
    (hal : s.allowedAdapters A a = true)
    (hwl : ∀ x, s.allowedAdapters A x = true → x ≠ 0 ∧ s.asset x = token)
    (h1 : s1.isInitialized A = true)
    (h2 : s1.currentAdapter A token = a)
    (h3 : ∀ x, s1.allowedAdapters A x = s.allowedAdapters A x)
    (h4 : s1.asset = s.asset)
    (h5 : ∀ x, x ≠ a → s1.yieldBal A x = 0)
    (h6 : thresholdInvS s1 A token) :
    invBundle s1 A token ∧ thresholdInvS s1 A token := by
  refine ⟨⟨⟨h1, ?_, ?_, ?_⟩, ?_, thresholdInvW_of_S h6⟩, h6⟩
  · rw [h2]; exact (hwl a hal).1
  · rw [h2, h4]; exact (hwl a hal).2
  · intro x hx
    rw [h3] at hx
    rw [h4]
    exact hwl x hx
  · intro x hx
    rw [h2] at hx
    exact h5 x hx

theorem migrate_step {A token a : Nat} {s s1 : SysState}
    (hb : invBundle s A token) (h : migrateStrategy s A token a = .ok s1) :
    invBundle s1 A token ∧
      (a ≠ s.currentAdapter A token → thresholdInvS s1 A token) := by
  obtain ⟨henv, hfund, hW⟩ := hb
  obtain ⟨hinit, had, hasset, hwl⟩ := henv
  simp only [migrateStrategy, getYieldBalance] at h
  split at h
  next e heq => unfold onlyAuthorizedCheck at heq; simp at heq
  next u heq =>
    clear heq
    rw [if_neg (not_not_intro hinit)] at h
    split at h
    next hnal => cases h
    next hnal =>
      have hal : s.allowedAdapters A a = true := not_not.mp hnal
      split at h
      next hsame =>
        cases h
        exact ⟨⟨⟨hinit, had, hasset, hwl⟩, hfund, hW⟩,
          fun hc => absurd hsame.symm hc⟩
      next hdiff =>
        have hmain : ∀ s2 : SysState, sameConfig s s2 →
            s2.liquid A token
              = s.liquid A token + s.yieldBal A (s.currentAdapter A token) →
            (∀ x, s2.yieldBal A x = 0) →
            migrateDeposit s2 A token a = .ok s1 →
            invBundle s1 A token ∧
              (a ≠ s.currentAdapter A token → thresholdInvS s1 A token) := by
          intro s2 hcfg2 hL2 hY2 h
          obtain ⟨c1, c2, c3, c4, c5, c6⟩ := hcfg2
          simp only [migrateDeposit] at h
          split at h
          next e heqw2 => cases h
          next s3 heqw2 =>
            have hs1 : s1 = { s3 with
                currentAdapter := upd2 s3.currentAdapter A token a } := by
              injection h with hx
              exact hx.symm
            have e3 : s1.currentAdapter = upd2 s3.currentAdapter A token a := by
              rw [hs1]
            have hcur : s1.currentAdapter A token = a := by rw [e3, upd2_self]
            have e1 : s1.isInitialized = s3.isInitialized := by rw [hs1]
            have e2 : s1.checkingThreshold = s3.checkingThreshold := by rw [hs1]
            have e4 : s1.allowedAdapters = s3.allowedAdapters := by rw [hs1]
            have e6 : s1.asset = s3.asset := by rw [hs1]
            have e7 : s1.liquid = s3.liquid := by rw [hs1]
            have e8 : s1.yieldBal = s3.yieldBal := by rw [hs1]
            split at heqw2
            next hgt =>
              obtain ⟨hdpos, hdasset, hdle, hdliq, hdyb, hdcfg⟩ :=
                deposit_ok heqw2
              obtain ⟨d1, d2, d3, d4, d5, d6⟩ := hdcfg
              have hL3 : s3.liquid A token = s2.checkingThreshold A token := by
                rw [hdliq, upd2_self]
                omega
              have hY3a : s3.yieldBal A a
                  = s2.liquid A token - s2.checkingThreshold A token := by
                rw [hdyb, upd2_self, hY2 a]
                omega
              refine (migrate_leaf hal hwl ?_ hcur ?_ ?_ ?_ ?_).imp id
                fun hs _ => hs
              · rw [e1, d1, c1]; exact hinit
              · intro x; rw [e4, d4, c4]
              · rw [e6, d6, c6]
              · intro x hx
                have hne : ¬(A = A ∧ x = a) := fun hc => hx hc.2
                rw [e8, hdyb, upd2_ne _ _ hne]
                exact hY2 x
              · have hT2 : s2.checkingThreshold A token
                    = s.checkingThreshold A token := by rw [c2]
                have hTs1 : s1.checkingThreshold A token
                    = s.checkingThreshold A token := by rw [e2, d2, c2]
                have hLs1 : s1.liquid A token = s.checkingThreshold A token := by
                  rw [e7, hL3, hT2]
                have hYs1a : s1.yieldBal A a
                    = s.liquid A token
                      + s.yieldBal A (s.currentAdapter A token)
                      - s.checkingThreshold A token := by
                  rw [e8, hY3a, hL2, hT2]
                have hgt2 : s.checkingThreshold A token
                    < s.liquid A token
                      + s.yieldBal A (s.currentAdapter A token) := by
                  have := hgt
                  rw [hL2, hT2] at this
                  exact this
                unfold thresholdInvS
                rw [hcur, hTs1, hLs1, hYs1a]
                constructor
                · intro _; omega
                · intro hlt; omega
            next hngt =>
              have hx : s3 = s2 := by
                injection heqw2 with hy
                exact hy.symm
              refine (migrate_leaf hal hwl ?_ hcur ?_ ?_ ?_ ?_).imp id
                fun hs _ => hs
              · rw [e1, hx, c1]; exact hinit
              · intro x2; rw [e4, hx, c4]
              · rw [e6, hx, c6]
              · intro x2 hx2
                rw [e8, hx]
                exact hY2 x2
              · have hTs1 : s1.checkingThreshold A token
                    = s.checkingThreshold A token := by rw [e2, hx, c2]
                have hLs1 : s1.liquid A token
                    = s.liquid A token
                      + s.yieldBal A (s.currentAdapter A token) := by
                  rw [e7, hx, hL2]
                have hYs1a : s1.yieldBal A a = 0 := by
                  rw [e8, hx]
                  exact hY2 a
                have hle2 : s.liquid A token
                      + s.yieldBal A (s.currentAdapter A token)
                    ≤ s.checkingThreshold A token := by
                  have hn := Nat.not_lt.mp hngt
                  rw [hL2, c2] at hn
                  exact hn
                unfold thresholdInvS
                rw [hcur, hTs1, hLs1, hYs1a]
                constructor
                · intro hge; omega
                · intro hlt; omega
        by_cases hy0 : 0 < s.yieldBal A (s.currentAdapter A token)
        · rw [if_pos hy0] at h
          cases heqw : withdrawFromYield s A (s.currentAdapter A token)
              (s.yieldBal A (s.currentAdapter A token)) with
          | error e =>
            rw [heqw] at h
            simp at h
          | ok s2 =>
            rw [heqw] at h
            have h2 : migrateDeposit s2 A token a = .ok s1 := h
            obtain ⟨hwpos, hwle, hwliq, hwyb, hwcfg⟩ := withdraw_ok heqw
            refine hmain s2 hwcfg ?_ ?_ h2
            · rw [hwliq, hasset, upd2_self]
            · intro x
              by_cases hx : x = s.currentAdapter A token
              · subst hx
                rw [hwyb, upd2_self]
                omega
              · have hne : ¬(A = A ∧ x = s.currentAdapter A token) :=
                  fun hc => hx hc.2
                rw [hwyb, upd2_ne _ _ hne]
                exact hfund x hx
        · rw [if_neg hy0] at h
          have h2 : migrateDeposit s A token a = .ok s1 := h
          refine hmain s (sameConfig_refl s) ?_ ?_ h2
          · omega
          · intro x
            by_cases hx : x = s.currentAdapter A token
            · subst hx; omega
            · exact hfund x hx

theorem unstake_facts {s s2 : SysState} {A token n : Nat}
    (had : s.currentAdapter A token ≠ 0)
    (hasset : s.asset (s.currentAdapter A token) = token)
    (h : autoYieldUnstake s A token n = .ok s2) :
    ∃ w, sameConfig s s2 ∧ w ≤ s.yieldBal A (s.currentAdapter A token) ∧
      s2.liquid A token = s.liquid A token + w ∧
      s2.yieldBal A (s.currentAdapter A token)
        = s.yieldBal A (s.currentAdapter A token) - w ∧
      (∀ x, x ≠ s.currentAdapter A token → s2.yieldBal A x = s.yieldBal A x) ∧
      (s.liquid A token + w ≤ n + s.checkingThreshold A token ∨ w = 0) ∧
      (s.liquid A token + w < n + s.checkingThreshold A token →
        s2.yieldBal A (s.currentAdapter A token) = 0) := by
  simp only [autoYieldUnstake, getYieldBalance] at h
  split at h
  next hg =>
    split at h
    next hy =>
      by_cases hw : s.yieldBal A (s.currentAdapter A token)
          < n + s.checkingThreshold A token - s.liquid A token
      · rw [if_pos hw] at h
        obtain ⟨hwpos, hwle, hwliq, hwyb, hwcfg⟩ := withdraw_ok h
        refine ⟨s.yieldBal A (s.currentAdapter A token), hwcfg, le_refl _,
          ?_, ?_, ?_, ?_, ?_⟩
        · rw [hwliq, hasset, upd2_self]
        · rw [hwyb, upd2_self]
        · intro x hx
          have hne : ¬(A = A ∧ x = s.currentAdapter A token) := fun hc => hx hc.2
          rw [hwyb, upd2_ne _ _ hne]
        · left; omega
        · intro _
          rw [hwyb, upd2_self]
          omega
      · rw [if_neg hw] at h
        obtain ⟨hwpos, hwle, hwliq, hwyb, hwcfg⟩ := withdraw_ok h
        refine ⟨n + s.checkingThreshold A token - s.liquid A token, hwcfg,
          by omega, ?_, ?_, ?_, ?_, ?_⟩
        · rw [hwliq, hasset, upd2_self]
        · rw [hwyb, upd2_self]
        · intro x hx
          have hne : ¬(A = A ∧ x = s.currentAdapter A token) := fun hc => hx hc.2
          rw [hwyb, upd2_ne _ _ hne]
        · left; omega
        · intro hc
          omega
    next hy =>
      injection h with hx
      subst hx
      exact ⟨0, sameConfig_refl s, by omega, by omega, by omega,
        fun x _ => rfl, Or.inr rfl, fun hc => by omega⟩
  next hg =>
    injection h with hx
    subst hx
    have hnl : ¬ (s.liquid A token < n + s.checkingThreshold A token) :=
      fun hc => hg ⟨hc, had⟩
    exact ⟨0, sameConfig_refl s, by omega, by omega, by omega,
      fun x _ => rfl, Or.inr rfl, fun hc => absurd (by omega) hnl⟩

theorem spend_step {A token r amt : Nat} {s s1 : SysState}
    (hb : invBundle s A token) (hamt : amt < 2 ^ 256) (hr : r < 2 ^ 160)
    (hrA : r ≠ A)
    (h : executeWithAutoYield s A token token 0 (transferData r amt) = .ok s1) :
    invBundle s1 A token ∧ thresholdInvS s1 A token := by
  obtain ⟨henv, hfund, hW⟩ := hb
  obtain ⟨hinit, had, hasset, hwl⟩ := henv
  unfold executeWithAutoYield at h
  rw [if_neg (not_not_intro hinit), extract_transferData r amt hamt] at h
  split at h
  next e hequ => cases h
  next s2 hequ =>
    split at h
    next e heqc => cases h
    next s3 heqc =>
      obtain ⟨w, hucfg, hwY, huL, huY, huOther, huBound, huZero⟩ :=
        unstake_facts had hasset hequ
      obtain ⟨hcle, hcliq, hcyb, hccfg⟩ := execCall_ok_transfer hamt hr heqc
      have hL3 : s3.liquid A token = s.liquid A token + w - amt := by
        rw [hcliq]
        have hne1 : ¬(A = r ∧ token = token) := fun hc => hrA hc.1.symm
        rw [upd2_ne _ _ hne1, upd2_self, huL]
      have hamtle : amt ≤ s.liquid A token + w := by
        rw [huL] at hcle
        exact hcle
      have hY3 : s3.yieldBal A (s.currentAdapter A token)
          = s.yieldBal A (s.currentAdapter A token) - w := by
        rw [hcyb, huY]
      have hY3o : ∀ x, x ≠ s.currentAdapter A token →
          s3.yieldBal A x = s.yieldBal A x := by
        intro x hx
        rw [hcyb, huOther x hx]
      have hcfg3 : sameConfig s s3 := sameConfig_trans hucfg hccfg
      obtain ⟨c1, c2, c3, c4, c5, c6⟩ := hcfg3
      change (if s.checkingThreshold A token < s3.liquid A token
            ∧ s.currentAdapter A token ≠ 0 then
          depositToYield s3 A (s.currentAdapter A token) token
            (s3.liquid A token - s.checkingThreshold A token)
        else Except.ok s3) = Except.ok s1 at h
      split at h
      next hdep =>
        obtain ⟨hdgt, hdad⟩ := hdep
        obtain ⟨hdpos, hdasset, hdle, hdliq, hdyb, hdcfg⟩ := deposit_ok h
        have hcfg1 : sameConfig s s1 :=
          sameConfig_trans ⟨c1, c2, c3, c4, c5, c6⟩ hdcfg
        have hcur1 : s1.currentAdapter A token = s.currentAdapter A token := by
          rw [hcfg1.2.2.1]
        have hT1 : s1.checkingThreshold A token
            = s.checkingThreshold A token := by rw [hcfg1.2.1]
        have hL1 : s1.liquid A token = s.checkingThreshold A token := by
          rw [hdliq, upd2_self]
          omega
        have hY1 : s1.yieldBal A (s.currentAdapter A token)
            = s3.yieldBal A (s.currentAdapter A token)
              + (s3.liquid A token - s.checkingThreshold A token) := by
          rw [hdyb, upd2_self]
        refine ⟨⟨goodEnv_of_sameConfig hcfg1 ⟨hinit, had, hasset, hwl⟩, ?_, ?_⟩, ?_⟩
        · intro x hx
          rw [hcur1] at hx
          have hne : ¬(A = A ∧ x = s.currentAdapter A token) := fun hc => hx hc.2
          rw [hdyb, upd2_ne _ _ hne, hY3o x hx]
          exact hfund x hx
        · refine thresholdInvW_of_S ?_
          unfold thresholdInvS
          rw [hcur1, hT1, hL1, hY1]
          constructor
          · intro _; rfl
          · intro hlt; omega
        · unfold thresholdInvS
          rw [hcur1, hT1, hL1, hY1]
          constructor
          · intro _; rfl
          · intro hlt; omega
      next hdep =>
        injection h with hx
        have hL1 : s1.liquid A token = s.liquid A token + w - amt := by
          rw [← hx, hL3]
        have hY1 : s1.yieldBal A (s.currentAdapter A token)
            = s.yieldBal A (s.currentAdapter A token) - w := by
          rw [← hx, hY3]
        have hT1 : s1.checkingThreshold A token
            = s.checkingThreshold A token := by rw [← hx, c2]
        have hcur1 : s1.currentAdapter A token = s.currentAdapter A token := by
          rw [← hx, c3]
        have hcfg1 : sameConfig s s1 := by
          rw [← hx]
          exact ⟨c1, c2, c3, c4, c5, c6⟩
        have hnd : ¬ (s.checkingThreshold A token < s.liquid A token + w - amt) := by
          intro hc
          rw [← hL3] at hc
          exact hdep ⟨hc, had⟩
        refine ⟨⟨goodEnv_of_sameConfig hcfg1 ⟨hinit, had, hasset, hwl⟩, ?_, ?_⟩, ?_⟩
        · intro x hx2
          rw [hcur1] at hx2
          rw [← hx, hY3o x hx2]
          exact hfund x hx2
        · refine thresholdInvW_of_S ?_
          unfold thresholdInvS
          rw [hcur1, hT1, hL1, hY1]
          constructor
          · intro hge; omega
          · intro hlt; omega
        · unfold thresholdInvS
          rw [hcur1, hT1, hL1, hY1]
          constructor
          · intro hge; omega
          · intro hlt; omega

theorem runSeq_inv {A token : Nat} : ∀ (ops : List YieldOp) (s s1 : SysState),
    invBundle s A token → (∀ op ∈ ops, wfOp A op) →
    runSeq A token s ops = .ok s1 → invBundle s1 A token := by
  intro ops
  induction ops with
  | nil =>
    intro s s1 hb _ hrun
    unfold runSeq at hrun
    injection hrun with hx
    rw [← hx]
    exact hb
  | cons op rest ih =>
    intro s s1 hb hwf hrun
    unfold runSeq at hrun
    split at hrun
    next e heq => cases hrun
    next s2 heq =>
      have hb2 : invBundle s2 A token := by
        cases op with
        | spend r amt =>
          obtain ⟨hamt, hr2, hrA⟩ := hwf (.spend r amt) (List.mem_cons_self _ _)
          exact (spend_step hb hamt hr2 hrA heq).1
        | rebal => exact (rebal_step hb heq).1
        | migrate a => exact (migrate_step hb heq).1
      exact ih s2 s1 hb2 (fun o ho => hwf o (List.mem_cons_of_mem _ ho)) hrun

theorem mkState_invBundle : invBundle (mkState 150 0) 1 7 := by
  refine ⟨⟨rfl, by decide, rfl, ?_⟩, ?_, ?_⟩
  · intro a ha
    simp [mkState] at ha
    subst ha
    exact ⟨by decide, rfl⟩
  · intro a ha
    simp [mkState]
  · unfold thresholdInvW
    simp [mkState]

theorem execCall_config {s s1 : SysState} {a t v : Nat} {data : List Nat}
    (h : execCall s a t v data = .ok s1) : sameConfig s s1 := by
  simp only [execCall] at h
  split at h
  · split at h
    · cases h
    · cases h
      exact ⟨rfl, rfl, rfl, rfl, rfl, rfl⟩
  · cases h
    exact sameConfig_refl s

theorem unstake_config {s s1 : SysState} {A token n : Nat}
    (h : autoYieldUnstake s A token n = .ok s1) : sameConfig s s1 := by
  simp only [autoYieldUnstake, getYieldBalance] at h
  split at h
  · split at h
    · exact (withdraw_ok h).2.2.2.2
    · cases h
      exact sameConfig_refl s
  · cases h
    exact sameConfig_refl s

theorem executeWithAutoYield_config {s s1 : SysState}
    {sender token toAddr v : Nat} {data : List Nat}
    (h : executeWithAutoYield s sender token toAddr v data = .ok s1) :
    sameConfig s s1 := by
  simp only [executeWithAutoYield] at h
  split at h
  · cases h
  · split at h
    next e hequ => cases h
    next s2 hequ =>
      split at h
      next e heqc => cases h
      next s3 heqc =>
        have hc2 := sameConfig_trans (unstake_config hequ) (execCall_config heqc)
        change (if s.checkingThreshold sender token < s3.liquid sender token
              ∧ s.currentAdapter sender token ≠ 0 then
            depositToYield s3 sender (s.currentAdapter sender token) token
              (s3.liquid sender token - s.checkingThreshold sender token)
          else Except.ok s3) = Except.ok s1 at h
        split at h
        · exact sameConfig_trans hc2 (deposit_ok h).2.2.2.2.2
        · injection h with hx
          rw [← hx]
          exact hc2

theorem rebalance_config {s s1 : SysState} {sender token : Nat}
    (h : rebalance s sender token = .ok s1) : sameConfig s s1 := by
  simp only [rebalance] at h
  split at h
  next e heq => cases h
  next u heq =>
    split at h
    · cases h
    · split at h
      · cases h
        exact sameConfig_refl s
      · split at h
        · exact (deposit_ok h).2.2.2.2.2
        · cases h
          exact sameConfig_refl s

theorem flush_config {s s1 : SysState} {sender token : Nat}
    (h : flushToChecking s sender token = .ok s1) : sameConfig s s1 := by
  simp only [flushToChecking, getYieldBalance] at h
  split at h
  next e heq => cases h
  next u heq =>
    split at h
    · split at h
      · exact (withdraw_ok h).2.2.2.2
      · cases h
        exact sameConfig_refl s
    · cases h
      exact sameConfig_refl s

theorem migrateDeposit_adapterInv {s2 s1 : SysState} {sender token a : Nat}
    (hinv2 : adapterInv s2) (hal2 : s2.allowedAdapters sender a = true)
    (h : migrateDeposit s2 sender token a = .ok s1) : adapterInv s1 := by
  simp only [migrateDeposit] at h
  split at h
  next e heqd => cases h
  next s3 heqd =>
    injection h with hx
    have hal3 : s3.allowedAdapters = s2.allowedAdapters ∧ adapterInv s3 := by
      split at heqd
      · obtain ⟨_, _, _, _, _, hcfg⟩ := deposit_ok heqd
        exact ⟨hcfg.2.2.2.1, adapterInv_of_sameConfig hcfg hinv2⟩
      · injection heqd with hy
        rw [← hy]
        exact ⟨rfl, hinv2⟩
    have ecur : s1.currentAdapter = upd2 s3.currentAdapter sender token a := by
      rw [← hx]
    have eal : s1.allowedAdapters = s3.allowedAdapters := by rw [← hx]
    intro acct tok hne
    rw [ecur] at hne ⊢
    rw [eal]
    by_cases hk : acct = sender ∧ tok = token
    · have hcur : upd2 s3.currentAdapter sender token a acct tok = a := by
        simp [upd2, hk]
      rw [hcur]
      rw [hal3.1, hk.1]
      exact hal2
    · have hcur : upd2 s3.currentAdapter sender token a acct tok
          = s3.currentAdapter acct tok := upd2_ne _ _ hk
      rw [hcur] at hne ⊢
      exact hal3.2 acct tok hne

theorem onInstall_adapterInv {s s1 : SysState} {sender d k t : Nat}
    (hinv : adapterInv s) (h : onInstall s sender d k t = .ok s1) :
    adapterInv s1 := by
  simp only [onInstall] at h
  split at h
  · cases h
  · split at h
    · cases h
    · injection h with hx
      have ecur : s1.currentAdapter
          = upd2 s.currentAdapter sender (s.asset d) d := by rw [← hx]
      have eal : s1.allowedAdapters
          = upd2 s.allowedAdapters sender d true := by rw [← hx]
      intro acct tok hne
      rw [ecur] at hne ⊢
      rw [eal]
      by_cases hk : acct = sender ∧ tok = s.asset d
      · have hcur : upd2 s.currentAdapter sender (s.asset d) d acct tok = d := by
          simp [upd2, hk]
        rw [hcur]
        simp [upd2, hk.1]
      · rw [upd2_ne _ _ hk] at hne ⊢
        by_cases hk2 : acct = sender ∧ s.currentAdapter acct tok = d
        · obtain ⟨rfl, hc2⟩ := hk2
          rw [hc2, upd2_self]
        · rw [upd2_ne _ _ hk2]
          exact hinv acct tok hne

theorem onUninstall_adapterInv {s s1 : SysState} {sender : Nat}
    (hinv : adapterInv s) (h : onUninstall s sender = .ok s1) :
    adapterInv s1 := by
  simp only [onUninstall] at h
  injection h with hx
  have ecur : s1.currentAdapter = s.currentAdapter := by rw [← hx]
  have eal : s1.allowedAdapters = s.allowedAdapters := by rw [← hx]
  intro acct tok hne
  rw [ecur] at hne ⊢
  rw [eal]
  exact hinv acct tok hne

theorem setCheckingThreshold_adapterInv {s s1 : SysState}
    {sender token th : Nat} (hinv : adapterInv s)
    (h : setCheckingThreshold s sender token th = .ok s1) : adapterInv s1 := by
  simp only [setCheckingThreshold] at h
  split at h
  next e heq => unfold onlyAccountCheck at heq; simp at heq
  next u heq =>
    injection h with hx
    have ecur : s1.currentAdapter = s.currentAdapter := by rw [← hx]
    have eal : s1.allowedAdapters = s.allowedAdapters := by rw [← hx]
    intro acct tok hne
    rw [ecur] at hne ⊢
    rw [eal]
    exact hinv acct tok hne

theorem setAutomationKey_adapterInv {s s1 : SysState} {sender key : Nat}
    (hinv : adapterInv s) (h : setAutomationKey s sender key = .ok s1) :
    adapterInv s1 := by
  simp only [setAutomationKey] at h
  split at h
  next e heq => unfold onlyAccountCheck at heq; simp at heq
  next u heq =>
    injection h with hx
    have ecur : s1.currentAdapter = s.currentAdapter := by rw [← hx]
    have eal : s1.allowedAdapters = s.allowedAdapters := by rw [← hx]
    intro acct tok hne
    rw [ecur] at hne ⊢
    rw [eal]
    exact hinv acct tok hne

theorem setCurrentAdapter_adapterInv {s s1 : SysState}
    {sender token adapter : Nat} (hinv : adapterInv s)
    (h : setCurrentAdapter s sender token adapter = .ok s1) : adapterInv s1 := by
  simp only [setCurrentAdapter] at h
  split at h
  next e heq => unfold onlyAccountCheck at heq; simp at heq
  next u heq =>
    split at h
    · cases h
    next hg =>
      injection h with hx
      have ecur : s1.currentAdapter
          = upd2 s.currentAdapter sender token adapter := by rw [← hx]
      have eal : s1.allowedAdapters = s.allowedAdapters := by rw [← hx]
      intro acct tok hne
      rw [ecur] at hne ⊢
      rw [eal]
      by_cases hk : acct = sender ∧ tok = token
      · have hcur : upd2 s.currentAdapter sender token adapter acct tok
            = adapter := by simp [upd2, hk]
        rw [hcur] at hne ⊢
        have hallow : s.allowedAdapters sender adapter = true := by
          by_contra hc
          exact hg ⟨hne, hc⟩
        rw [hk.1]
        exact hallow
      · rw [upd2_ne _ _ hk] at hne ⊢
        exact hinv acct tok hne

theorem migrateStrategy_adapterInv {s s1 : SysState} {sender token a : Nat}
    (hinv : adapterInv s) (h : migrateStrategy s sender token a = .ok s1) :
    adapterInv s1 := by
  simp only [migrateStrategy, getYieldBalance] at h
  split at h
  next e heq => unfold onlyAuthorizedCheck at heq; simp at heq
  next u heq =>
    split at h
    · cases h
    next hini =>
      split at h
      · cases h
      next hnal =>
        have hal : s.allowedAdapters sender a = true := not_not.mp hnal
        split at h
        next hsame =>
          injection h with hx
          rw [← hx]
          exact hinv
        next hdiff =>
          by_cases h0 : s.currentAdapter sender token ≠ 0
          · rw [if_pos h0] at h
            by_cases hy : 0 < s.yieldBal sender (s.currentAdapter sender token)
            · rw [if_pos hy] at h
              cases heqw : withdrawFromYield s sender
                  (s.currentAdapter sender token)
                  (s.yieldBal sender (s.currentAdapter sender token)) with
              | error e =>
                rw [heqw] at h
                simp at h
              | ok s2 =>
                rw [heqw] at h
                have h2 : migrateDeposit s2 sender token a = .ok s1 := h
                have hcfg := (withdraw_ok heqw).2.2.2.2
                exact migrateDeposit_adapterInv
                  (adapterInv_of_sameConfig hcfg hinv)
                  (by rw [hcfg.2.2.2.1]; exact hal) h2
            · rw [if_neg hy] at h
              exact migrateDeposit_adapterInv hinv hal h
          · rw [if_neg h0] at h
            exact migrateDeposit_adapterInv hinv hal h


theorem encodeNonce_testBit (x seq i : Nat) (hseq : seq < 2 ^ 64)
    (hi : i < 160) :
    (encodeNonceForValidator x seq).testBit (80 + i) = x.testBit i := by
  unfold encodeNonceForValidator
  have hs : seq.testBit (80 + i) = false :=
    Nat.testBit_lt_two_pow
      (lt_of_lt_of_le hseq (Nat.pow_le_pow_right (by norm_num) (by omega)))
  have h64 : ((0 : Nat) <<< 64).testBit (80 + i) = false := by
    rw [Nat.zero_shiftLeft]
    exact Nat.zero_testBit _
  have h248 : ((0 : Nat) <<< 248).testBit (80 + i) = false := by
    rw [Nat.zero_shiftLeft]
    exact Nat.zero_testBit _
  have h240 : ((1 : Nat) <<< 240).testBit (80 + i) = false := by
    rw [Nat.testBit_shiftLeft]
    have : ¬ (240 ≤ 80 + i) := by omega
    simp [this]
  have hx : (x <<< 80).testBit (80 + i) = x.testBit i := by
    rw [Nat.testBit_shiftLeft]
    have h1 : (80 ≤ 80 + i) := by omega
    have h2 : 80 + i - 80 = i := by omega
    simp [h1, h2]
  simp only [Nat.testBit_lor, hs, h64, h248, h240, hx, Bool.false_or,
    Bool.or_false]

theorem policyEq_refl (s : SysState) (A : Nat) : policyEq s s A :=
  ⟨rfl, fun _ => rfl, fun _ => rfl, fun _ => rfl, rfl⟩

theorem policyEq_of_sameConfig {s t : SysState} (h : sameConfig s t) (A : Nat) :
    policyEq s t A := by
  obtain ⟨c1, c2, c3, c4, c5, c6⟩ := h
  exact ⟨by rw [c1], fun tok => by rw [c2], fun tok => by rw [c3],
    fun ad => by rw [c4], by rw [c5]⟩

theorem runOp_policyEq {s : SysState} {A : Nat}
    (f : SysState → Except Err SysState)
    (hf : ∀ s2, f s = .ok s2 → policyEq s s2 A) : policyEq s (runOp s f) A := by
  unfold runOp
  cases hres : f s with
  | error e => exact policyEq_refl s A
  | ok s2 => exact hf s2 hres

theorem setCheckingThreshold_ok_policyEq {s s2 : SysState}
    {K token thr A : Nat} (hAK : A ≠ K)
    (h : setCheckingThreshold s K token thr = .ok s2) : policyEq s s2 A := by
  simp only [setCheckingThreshold, onlyAccountCheck] at h
  rw [if_neg (not_not_intro rfl)] at h
  injection h with hx
  refine ⟨by rw [← hx], fun tok2 => ?_, fun tok2 => by rw [← hx],
    fun ad => by rw [← hx], by rw [← hx]⟩
  rw [← hx]
  show upd2 s.checkingThreshold K token thr A tok2 = s.checkingThreshold A tok2
  exact upd2_ne _ _ (fun hc => hAK hc.1)

theorem setCurrentAdapter_ok_policyEq {s s2 : SysState}
    {K token adp A : Nat} (hAK : A ≠ K)
    (h : setCurrentAdapter s K token adp = .ok s2) : policyEq s s2 A := by
  simp only [setCurrentAdapter, onlyAccountCheck] at h
  rw [if_neg (not_not_intro rfl)] at h
  have h2 : (if adp ≠ 0 ∧ ¬ s.allowedAdapters K adp = true then
      (Except.error Err.AdapterNotAllowed : Except Err SysState)
    else Except.ok { s with
      currentAdapter := upd2 s.currentAdapter K token adp }) = Except.ok s2 := h
  clear h
  split at h2
  · cases h2
  · injection h2 with hx
    refine ⟨by rw [← hx], fun tok2 => by rw [← hx], fun tok2 => ?_,
      fun ad => by rw [← hx], by rw [← hx]⟩
    rw [← hx]
    show upd2 s.currentAdapter K token adp A tok2 = s.currentAdapter A tok2
    exact upd2_ne _ _ (fun hc => hAK hc.1)

theorem setAdapterAllowed_ok_policyEq {s s2 : SysState} {K adp A : Nat}
    {b : Bool} (hAK : A ≠ K)
    (h : setAdapterAllowed s K adp b = .ok s2) : policyEq s s2 A := by
  simp only [setAdapterAllowed, onlyAccountCheck] at h
  rw [if_neg (not_not_intro rfl)] at h
  injection h with hx
  refine ⟨by rw [← hx], fun tok2 => by rw [← hx], fun tok2 => by rw [← hx],
    fun ad => ?_, by rw [← hx]⟩
  rw [← hx]
  show upd2 s.allowedAdapters K adp b A ad = s.allowedAdapters A ad
  exact upd2_ne _ _ (fun hc => hAK hc.1)

theorem setAutomationKey_ok_policyEq {s s2 : SysState} {K key A : Nat}
    (hAK : A ≠ K) (h : setAutomationKey s K key = .ok s2) : policyEq s s2 A := by
  simp only [setAutomationKey, onlyAccountCheck] at h
  rw [if_neg (not_not_intro rfl)] at h
  injection h with hx
  refine ⟨by rw [← hx], fun tok2 => by rw [← hx], fun tok2 => by rw [← hx],
    fun ad => by rw [← hx], ?_⟩
  rw [← hx]
  show upd s.automationKey K key A = s.automationKey A
  exact upd_ne _ _ hAK

theorem setCheckingThreshold_not_unauth (s : SysState) (K token thr : Nat) :
    setCheckingThreshold s K token thr ≠ .error .UnauthorizedCaller := by
  simp only [setCheckingThreshold, onlyAccountCheck]
  rw [if_neg (not_not_intro rfl)]
  simp

theorem setCurrentAdapter_not_unauth (s : SysState) (K token adp : Nat) :
    setCurrentAdapter s K token adp ≠ .error .UnauthorizedCaller := by
  simp only [setCurrentAdapter, onlyAccountCheck]
  rw [if_neg (not_not_intro rfl)]
  intro hc
  have hc2 : (if adp ≠ 0 ∧ ¬ s.allowedAdapters K adp = true then
      (Except.error Err.AdapterNotAllowed : Except Err SysState)
    else Except.ok { s with
      currentAdapter := upd2 s.currentAdapter K token adp })
      = Except.error Err.UnauthorizedCaller := hc
  split at hc2 <;> simp at hc2

theorem setAdapterAllowed_not_unauth (s : SysState) (K adp : Nat) (b : Bool) :
    setAdapterAllowed s K adp b ≠ .error .UnauthorizedCaller := by
  simp only [setAdapterAllowed, onlyAccountCheck]
  rw [if_neg (not_not_intro rfl)]
  simp

theorem setAutomationKey_not_unauth (s : SysState) (K key : Nat) :
    setAutomationKey s K key ≠ .error .UnauthorizedCaller := by
  simp only [setAutomationKey, onlyAccountCheck]
  rw [if_neg (not_not_intro rfl)]
  simp

theorem flushToChecking_not_unauth (s : SysState) (K token : Nat) :
    flushToChecking s K token ≠ .error .UnauthorizedCaller := by
  intro hc
  simp only [flushToChecking, onlyAccountCheck, getYieldBalance] at hc
  rw [if_neg (not_not_intro rfl)] at hc
  have hc2 : (if s.currentAdapter K token ≠ 0 then
      (if 0 < s.yieldBal K (s.currentAdapter K token) then
        withdrawFromYield s K (s.currentAdapter K token)
          (s.yieldBal K (s.currentAdapter K token))
      else Except.ok s)
    else Except.ok s) = Except.error Err.UnauthorizedCaller := hc
  split at hc2
  · split at hc2
    · unfold withdrawFromYield at hc2
      split at hc2
      · simp at hc2
      · split at hc2
        · simp at hc2
        · simp at hc2
    · simp at hc2
  · simp at hc2

/-- C1 (counterexample): a call whose caller is the account's automation
key (account 1 has automation key 2, and 2 is not the account) does NOT
fail with the `UnauthorizedCaller` reason for any of the five owner-only
operations: the modifiers are instantiated with `msg.sender` itself, so the
check compares the caller against itself and always passes. -/
theorem automation_caller_not_unauthorized_cex :
    (mkState 30 400).automationKey 1 = 2 ∧ (2 : Nat) ≠ 1 ∧
    isOk (setCheckingThreshold (mkState 30 400) 2 7 55) = true ∧
    isOk (setCurrentAdapter (mkState 30 400) 2 7 0) = true ∧
    isOk (setAdapterAllowed (mkState 30 400) 2 9 true) = true ∧
    isOk (setAutomationKey (mkState 30 400) 2 9) = true ∧
    isOk (flushToChecking (mkState 30 400) 2 7) = true := by
  decide

/-- C1 (amended): a call to any of the five owner-only operations whose
caller is the account's automation key (and not the account itself) never
reverts with the `UnauthorizedCaller` reason — the in-module check is
vacuous — and it executes against the caller's own storage slice, leaving
the target account's policy state (all five module mappings at that
account) unchanged. -/
theorem automation_caller_owner_ops (s : SysState)
    (A token thr adp key : Nat) (b : Bool) (hne : s.automationKey A ≠ A) :
    (setCheckingThreshold s (s.automationKey A) token thr
        ≠ .error .UnauthorizedCaller ∧
      policyEq s (runOp s
        (fun s0 => setCheckingThreshold s0 (s.automationKey A) token thr)) A) ∧
    (setCurrentAdapter s (s.automationKey A) token adp
        ≠ .error .UnauthorizedCaller ∧
      policyEq s (runOp s
        (fun s0 => setCurrentAdapter s0 (s.automationKey A) token adp)) A) ∧
    (setAdapterAllowed s (s.automationKey A) adp b
        ≠ .error .UnauthorizedCaller ∧
      policyEq s (runOp s
        (fun s0 => setAdapterAllowed s0 (s.automationKey A) adp b)) A) ∧
    (setAutomationKey s (s.automationKey A) key
        ≠ .error .UnauthorizedCaller ∧
      policyEq s (runOp s
        (fun s0 => setAutomationKey s0 (s.automationKey A) key)) A) ∧
    (flushToChecking s (s.automationKey A) token
        ≠ .error .UnauthorizedCaller ∧
      policyEq s (runOp s
        (fun s0 => flushToChecking s0 (s.automationKey A) token)) A) := by
  have hAK : A ≠ s.automationKey A := fun hc => hne hc.symm
  refine ⟨⟨setCheckingThreshold_not_unauth s _ token thr,
      runOp_policyEq _ (fun s2 h => setCheckingThreshold_ok_policyEq hAK h)⟩,
    ⟨setCurrentAdapter_not_unauth s _ token adp,
      runOp_policyEq _ (fun s2 h => setCurrentAdapter_ok_policyEq hAK h)⟩,
    ⟨setAdapterAllowed_not_unauth s _ adp b,
      runOp_policyEq _ (fun s2 h => setAdapterAllowed_ok_policyEq hAK h)⟩,
    ⟨setAutomationKey_not_unauth s _ key,
      runOp_policyEq _ (fun s2 h => setAutomationKey_ok_policyEq hAK h)⟩,
    ⟨flushToChecking_not_unauth s _ token,
      runOp_policyEq _ (fun s2 h => policyEq_of_sameConfig (flush_config h) A)⟩⟩

/-- C1 (witness): the amended theorem applied at a concrete state where
account 1 has automation key 2. -/
theorem automation_caller_owner_ops_witness :
    (mkState 30 400).automationKey 1 = 2 ∧ (2 : Nat) ≠ 1 ∧
    policyEq (mkState 30 400)
      (runOp (mkState 30 400)
        (fun s0 => setCheckingThreshold s0
          ((mkState 30 400).automationKey 1) 7 55)) 1 :=
  ⟨by decide, by decide,
    (automation_caller_owner_ops (mkState 30 400) 1 7 55 9 9 true
      (by decide)).1.2⟩

/-- C2: a successful `flushToChecking` on an account with adapter 5 holding
400 in yield moves the whole yield balance to the liquid balance, but
`currentAdapter` for the token still points at adapter 5 afterwards — the
source never clears it, although the repository's own design document
requires `currentAdapter[account][token] = address(0)` at the end of
`flushToChecking`. -/
theorem flushToChecking_keeps_currentAdapter :
    isOk (flushToChecking (mkState 30 400) 1 7) = true ∧
    (runOp (mkState 30 400) (fun s => flushToChecking s 1 7)).liquid 1 7
      = 430 ∧
    (runOp (mkState 30 400) (fun s => flushToChecking s 1 7)).yieldBal 1 5
      = 0 ∧
    (runOp (mkState 30 400) (fun s => flushToChecking s 1 7)).currentAdapter 1 7
      = 5 ∧
    (runOp (mkState 30 400)
        (fun s => flushToChecking s 1 7)).currentAdapter 1 7 ≠ 0 := by
  decide

theorem mkState_adapterInv (L Y : Nat) : adapterInv (mkState L Y) := by
  intro acct tok hne
  simp only [mkState] at hne ⊢
  by_cases hk : acct = 1 ∧ tok = 7
  · rw [if_pos hk]
    simp [hk.1]
  · rw [if_neg hk] at hne
    exact absurd rfl hne

/-- C3 (counterexample): the whitelist invariant holds of the scenario
state (current adapter 5 is whitelisted), `setAdapterAllowed(5, false)`
succeeds, and afterwards the invariant is violated: adapter 5 is still the
current adapter for token 7 but is no longer whitelisted. -/
theorem adapterInv_setAdapterAllowed_cex :
    adapterInv (mkState 30 0) ∧
    isOk (setAdapterAllowed (mkState 30 0) 1 5 false) = true ∧
    ¬ adapterInv (runOp (mkState 30 0) (fun s => setAdapterAllowed s 1 5 false)) := by
  refine ⟨mkState_adapterInv 30 0, by decide, ?_⟩
  intro hcon
  have h1 : (runOp (mkState 30 0)
      (fun s => setAdapterAllowed s 1 5 false)).currentAdapter 1 7 = 5 := by
    decide
  have h2 := hcon 1 7 (by rw [h1]; decide)
  rw [h1] at h2
  have h3 : (runOp (mkState 30 0)
      (fun s => setAdapterAllowed s 1 5 false)).allowedAdapters 1 5 = false := by
    decide
  rw [h3] at h2
  cases h2

/-- C3 (amended): the invariant "every configured current adapter is
whitelisted" holds after `onInstall` (a fresh account has no configured
adapters, so the invariant holds vacuously before installation, and
`onInstall` preserves it while whitelisting the default adapter it
configures) and is preserved by every operation of the policy state machine
except `setAdapterAllowed`, which can revoke the whitelist entry of an
adapter while it is still current. -/
theorem adapterInv_onInstall_and_preserved :
    (∀ (s s1 : SysState) (sender d k t : Nat), adapterInv s →
      onInstall s sender d k t = .ok s1 → adapterInv s1) ∧
    (∀ (s s1 : SysState) (sender : Nat), adapterInv s →
      onUninstall s sender = .ok s1 → adapterInv s1) ∧
    (∀ (s s1 : SysState) (sender token toAddr v : Nat) (data : List Nat),
      adapterInv s → executeWithAutoYield s sender token toAddr v data = .ok s1 →
      adapterInv s1) ∧
    (∀ (s s1 : SysState) (sender token : Nat), adapterInv s →
      rebalance s sender token = .ok s1 → adapterInv s1) ∧
    (∀ (s s1 : SysState) (sender token a : Nat), adapterInv s →
      migrateStrategy s sender token a = .ok s1 → adapterInv s1) ∧
    (∀ (s s1 : SysState) (sender token : Nat), adapterInv s →
      flushToChecking s sender token = .ok s1 → adapterInv s1) ∧
    (∀ (s s1 : SysState) (sender token th : Nat), adapterInv s →
      setCheckingThreshold s sender token th = .ok s1 → adapterInv s1) ∧
    (∀ (s s1 : SysState) (sender token a : Nat), adapterInv s →
      setCurrentAdapter s sender token a = .ok s1 → adapterInv s1) ∧
    (∀ (s s1 : SysState) (sender k : Nat), adapterInv s →
      setAutomationKey s sender k = .ok s1 → adapterInv s1) :=
  ⟨fun _ _ _ _ _ _ hi h => onInstall_adapterInv hi h,
   fun _ _ _ hi h => onUninstall_adapterInv hi h,
   fun _ _ _ _ _ _ _ hi h =>
     adapterInv_of_sameConfig (executeWithAutoYield_config h) hi,
   fun _ _ _ _ hi h =>
     adapterInv_of_sameConfig (rebalance_config h) hi,
   fun _ _ _ _ _ hi h => migrateStrategy_adapterInv hi h,
   fun _ _ _ _ hi h => adapterInv_of_sameConfig (flush_config h) hi,
   fun _ _ _ _ _ hi h => setCheckingThreshold_adapterInv hi h,
   fun _ _ _ _ _ hi h => setCurrentAdapter_adapterInv hi h,
   fun _ _ _ _ hi h => setAutomationKey_adapterInv hi h⟩

/-- C3 (witness): the preservation theorem applied to a concrete
`setCheckingThreshold` call on the scenario state. -/
theorem adapterInv_onInstall_and_preserved_witness :
    adapterInv (runOp (mkState 30 0) (fun s => setCheckingThreshold s 1 7 55)) :=
  adapterInv_onInstall_and_preserved.2.2.2.2.2.2.1 (mkState 30 0)
    (runOp (mkState 30 0) (fun s => setCheckingThreshold s 1 7 55)) 1 7 55
    (mkState_adapterInv 30 0) rfl

/-- C4: the threshold invariant.  Each of `executeWithAutoYield` (with an
ERC-20 transfer payload), `rebalance` and `migrateStrategy` preserves the
invariant bundle (configured adapter for the token, only the current
adapter funded, and the weak threshold invariant), and after each
successful adjusting call the strict threshold invariant of the
specification holds: liquid is exactly the threshold when total funds reach
it, and otherwise all funds are liquid and the yield balance is zero.  A
`migrateStrategy` to the current adapter is the documented no-op for which
no adjustment is possible.  The bundle (whose weak invariant is exactly
"strict, except that an untouched all-liquid surplus may persist across
no-op calls") is preserved along every successful sequence of such
calls; it holds initially for any freshly installed account because the
yield balances are then zero. -/
theorem autoYield_threshold_invariant :
    (∀ (A token r amt : Nat) (s s1 : SysState), invBundle s A token →
      amt < 2 ^ 256 → r < 2 ^ 160 → r ≠ A →
      executeWithAutoYield s A token token 0 (transferData r amt) = .ok s1 →
      invBundle s1 A token ∧ thresholdInvS s1 A token) ∧
    (∀ (A token : Nat) (s s1 : SysState), invBundle s A token →
      rebalance s A token = .ok s1 →
      invBundle s1 A token ∧ thresholdInvS s1 A token) ∧
    (∀ (A token a : Nat) (s s1 : SysState), invBundle s A token →
      migrateStrategy s A token a = .ok s1 →
      invBundle s1 A token ∧
        (a ≠ s.currentAdapter A token → thresholdInvS s1 A token)) ∧
    (∀ (A token : Nat) (ops : List YieldOp) (s s1 : SysState),
      invBundle s A token → (∀ op ∈ ops, wfOp A op) →
      runSeq A token s ops = .ok s1 → invBundle s1 A token) :=
  ⟨fun _ _ _ _ _ _ hb h1 h2 h3 h => spend_step hb h1 h2 h3 h,
   fun _ _ _ _ hb h => rebal_step hb h,
   fun _ _ _ _ _ hb h => migrate_step hb h,
   fun _ _ ops s s1 hb hwf h => runSeq_inv ops s s1 hb hwf h⟩

/-- C4 (witness): the rebalance clause applied to a concrete state with
liquid 150, threshold 100 and an empty yield position. -/
theorem autoYield_threshold_invariant_witness :
    invBundle (runOp (mkState 150 0) (fun s => rebalance s 1 7)) 1 7 ∧
    thresholdInvS (runOp (mkState 150 0) (fun s => rebalance s 1 7)) 1 7 :=
  autoYield_threshold_invariant.2.1 1 7 (mkState 150 0)
    (runOp (mkState 150 0) (fun s => rebalance s 1 7)) mkState_invBundle rfl

/-- C5: atomicity of the spend path.  If the unstake phase succeeds and the
embedded call reverts, the whole `executeWithAutoYield` reverts with the
same reason, so under the EVM rollback semantics (`runOp`) the state is
unchanged — no unstake persists.  In the concrete scenario of 100 liquid /
400 yield, threshold 100 and a spend request of 1000 (insufficient even
after the full unstake of 400), the call reverts and the state is unchanged
at 100 liquid / 400 yield. -/
theorem executeWithAutoYield_atomicity :
    (∀ (s s1 : SysState) (sender token toAddr value : Nat)
        (data : List Nat) (e : Err),
      s.isInitialized sender = true →
      autoYieldUnstake s sender token (extractTransferAmount data) = .ok s1 →
      execCall s1 sender toAddr value data = .error e →
      executeWithAutoYield s sender token toAddr value data = .error e ∧
        runOp s (fun s0 =>
          executeWithAutoYield s0 sender token toAddr value data) = s) ∧
    executeWithAutoYield (mkState 100 400) 1 7 7 0 (transferData 9 1000)
      = .error .TransferExceedsBalance ∧
    runOp (mkState 100 400)
        (fun s => executeWithAutoYield s 1 7 7 0 (transferData 9 1000))
      = mkState 100 400 ∧
    (mkState 100 400).liquid 1 7 = 100 ∧
    (mkState 100 400).yieldBal 1 5 = 400 ∧
    (mkState 100 400).checkingThreshold 1 7 = 100 ∧
    extractTransferAmount (transferData 9 1000) = 1000 := by
  constructor
  · intro s s1 sender token toAddr value data e hinit hu hc
    have hmain : executeWithAutoYield s sender token toAddr value data
        = .error e := by
      unfold executeWithAutoYield
      rw [if_neg (not_not_intro hinit), hu]
      have hred : (match execCall s1 sender toAddr value data with
          | Except.error e2 => (Except.error e2 : Except Err SysState)
          | Except.ok s2 =>
            if s.checkingThreshold sender token < s2.liquid sender token
                ∧ s.currentAdapter sender token ≠ 0 then
              depositToYield s2 sender (s.currentAdapter sender token) token
                (s2.liquid sender token - s.checkingThreshold sender token)
            else Except.ok s2) = Except.error e := by
        rw [hc]
      exact hred
    refine ⟨hmain, ?_⟩
    unfold runOp
    simp only [hmain]
  · refine ⟨by rfl, by rfl, by decide, by decide, by decide, by decide⟩

/-- C5 (witness): the atomicity theorem applied to the concrete
100 liquid / 400 yield scenario with a spend request of 1000. -/
theorem executeWithAutoYield_atomicity_witness :
    executeWithAutoYield (mkState 100 400) 1 7 7 0 (transferData 9 1000)
        = .error .TransferExceedsBalance ∧
    runOp (mkState 100 400)
        (fun s0 => executeWithAutoYield s0 1 7 7 0 (transferData 9 1000))
      = mkState 100 400 :=
  executeWithAutoYield_atomicity.1 (mkState 100 400)
    (runOp (mkState 100 400)
      (fun s0 => autoYieldUnstake s0 1 7
        (extractTransferAmount (transferData 9 1000))))
    1 7 7 0 (transferData 9 1000) .TransferExceedsBalance (by decide)
    (by rfl) (by rfl)

/-- C6 (counterexample): in the concrete scenario liquid 30 / yield 470 /
threshold 100 with a spend of 150, the call succeeds but the final yield
balance is not 370. -/
theorem spend_scenario_yield_not_370 :
    isOk (executeWithAutoYield (mkState 30 470) 1 7 7 0 (transferData 9 150))
      = true ∧
    (runOp (mkState 30 470)
        (fun s => executeWithAutoYield s 1 7 7 0 (transferData 9 150))).yieldBal
      1 5 ≠ 370 := by
  decide

/-- C6 (amended): in the scenario liquid 30 / yield 470 / threshold 100
with a spend of 150, required is 250 and the deficit 220, the unstake
leaves liquid 250 and yield 250, the transfer leaves liquid 100 (no
surplus, so no restake), and the final state is liquid 100 and yield 250 —
not 370, since 30 + 470 − 150 = 350 = 100 + 250. -/
theorem spend_scenario_final_state :
    extractTransferAmount (transferData 9 150) = 150 ∧
    (mkState 30 470).checkingThreshold 1 7 = 100 ∧
    (mkState 30 470).liquid 1 7 = 30 ∧
    (mkState 30 470).yieldBal 1 5 = 470 ∧
    150 + (mkState 30 470).checkingThreshold 1 7 = 250 ∧
    250 - (mkState 30 470).liquid 1 7 = 220 ∧
    (runOp (mkState 30 470) (fun s => autoYieldUnstake s 1 7 150)).liquid 1 7
      = 250 ∧
    (runOp (mkState 30 470) (fun s => autoYieldUnstake s 1 7 150)).yieldBal 1 5
      = 250 ∧
    isOk (executeWithAutoYield (mkState 30 470) 1 7 7 0 (transferData 9 150))
      = true ∧
    (runOp (mkState 30 470)
        (fun s => executeWithAutoYield s 1 7 7 0 (transferData 9 150))).liquid
      1 7 = 100 ∧
    (runOp (mkState 30 470)
        (fun s => executeWithAutoYield s 1 7 7 0 (transferData 9 150))).yieldBal
      1 5 = 250 := by
  decide

/-- C7: a `migrateStrategy` call to an adapter that is not whitelisted on
an initialized account reverts with the `AdapterNotAllowed` reason, and
under the EVM rollback semantics nothing is mutated. -/
theorem migrateStrategy_not_allowed_reverts (s : SysState) (A token X : Nat)
    (hinit : s.isInitialized A = true)
    (hX : s.allowedAdapters A X = false) :
    migrateStrategy s A token X = .error .AdapterNotAllowed ∧
    runOp s (fun s0 => migrateStrategy s0 A token X) = s := by
  have hmain : migrateStrategy s A token X = .error .AdapterNotAllowed := by
    simp [migrateStrategy, onlyAuthorizedCheck, hinit, hX]
  refine ⟨hmain, ?_⟩
  unfold runOp
  simp only [hmain]

/-- C7 (witness): the whitelist theorem applied to a concrete state where
adapter 9 is not whitelisted. -/
theorem migrateStrategy_not_allowed_reverts_witness :
    (mkState 30 400).isInitialized 1 = true ∧
    (mkState 30 400).allowedAdapters 1 9 = false ∧
    migrateStrategy (mkState 30 400) 1 7 9 = .error .AdapterNotAllowed :=
  ⟨by decide, by decide,
    (migrateStrategy_not_allowed_reverts (mkState 30 400) 1 7 9 (by decide)
      (by decide)).1⟩

/-- C8: nonce disjointness.  Encoding the same 64-bit sequence number for
two distinct validator/credential addresses yields two distinct encoded
nonces: the validator address occupies bits 80..239 of the word, disjoint
from the sequence bits 0..63 and the type tag at bit 240. -/
theorem encodeNonce_disjoint (a b seq : Nat) (ha : a < 2 ^ 160)
    (hb : b < 2 ^ 160) (hs : seq < 2 ^ 64) (hab : a ≠ b) :
    encodeNonceForValidator a seq ≠ encodeNonceForValidator b seq := by
  intro heq
  apply hab
  apply Nat.eq_of_testBit_eq
  intro i
  by_cases hi : i < 160
  · rw [← encodeNonce_testBit a seq i hs hi,
      ← encodeNonce_testBit b seq i hs hi, heq]
  · have hfa : a.testBit i = false :=
      Nat.testBit_lt_two_pow
        (lt_of_lt_of_le ha (Nat.pow_le_pow_right (by norm_num) (by omega)))
    have hfb : b.testBit i = false :=
      Nat.testBit_lt_two_pow
        (lt_of_lt_of_le hb (Nat.pow_le_pow_right (by norm_num) (by omega)))
    rw [hfa, hfb]

/-- C8 (witness): the disjointness theorem applied to validators 3 and 4
with sequence number 9. -/
theorem encodeNonce_disjoint_witness :
    encodeNonceForValidator 3 9 ≠ encodeNonceForValidator 4 9 :=
  encodeNonce_disjoint 3 4 9 (by decide) (by decide) (by decide) (by decide)

/-- C9: `packUint128` concatenates the two 128-bit magnitudes high-to-low
into one 32-byte word whose value is `high * 2 ^ 128 + low` (the first
argument occupies the high 16 bytes), and when either component does not
fit in 128 bits the construction fails with `none` (viem's pad raises)
rather than truncating. -/
theorem packUint128_spec (high low : Nat) :
    (high < 2 ^ 128 → low < 2 ^ 128 →
      packUint128 high low = some (natToBytes 16 high ++ natToBytes 16 low) ∧
      (natToBytes 16 high ++ natToBytes 16 low).length = 32 ∧
      bytesToNat (natToBytes 16 high ++ natToBytes 16 low)
        = high * 2 ^ 128 + low ∧
      (natToBytes 16 high ++ natToBytes 16 low).take 16 = natToBytes 16 high ∧
      (natToBytes 16 high ++ natToBytes 16 low).drop 16
        = natToBytes 16 low) ∧
    ((2 ^ 128 ≤ high ∨ 2 ^ 128 ≤ low) → packUint128 high low = none) := by
  constructor
  · intro hh hl
    refine ⟨?_, ?_, ?_, ?_, ?_⟩
    · unfold packUint128 padHex16
      rw [if_pos hh, if_pos hl]
    · simp [length_natToBytes]
    · rw [bytesToNat_append, bytesToNat_natToBytes, bytesToNat_natToBytes,
        length_natToBytes]
      have h1 : (256 : Nat) ^ 16 = 2 ^ 128 := by norm_num
      rw [h1, Nat.mod_eq_of_lt hh, Nat.mod_eq_of_lt hl]
    · exact take_append_len _ _ _ (length_natToBytes 16 high)
    · exact drop_append_len _ _ _ (length_natToBytes 16 high)
  · intro hcase
    unfold packUint128 padHex16
    rcases hcase with hc | hc
    · rw [if_neg (Nat.not_lt.mpr hc)]
    · by_cases hh : high < 2 ^ 128
      · rw [if_pos hh, if_neg (Nat.not_lt.mpr hc)]
      · rw [if_neg hh]

/-- C9 (witness): the packing theorem applied to components 3 and 5. -/
theorem packUint128_spec_witness :
    packUint128 3 5 = some (natToBytes 16 3 ++ natToBytes 16 5) ∧
    bytesToNat (natToBytes 16 3 ++ natToBytes 16 5) = 3 * 2 ^ 128 + 5 :=
  ⟨((packUint128_spec 3 5).1 (by decide) (by decide)).1,
   ((packUint128_spec 3 5).1 (by decide) (by decide)).2.2.1⟩

/-- C10: the spend amount is derived solely by parsing the payload: a
payload shorter than 68 bytes or with a selector other than the ERC-20
`transfer` selector contributes amount 0; a well-shaped transfer payload
contributes exactly the big-endian word at bytes 36..68.  Consequently the
pre-execution withdrawal of `executeWithAutoYield` on a non-transfer
payload covers only the threshold: the unstake phase behaves as with
amount 0 and leaves the liquid balance at most `max checking threshold`. -/
theorem extractTransferAmount_only_transfer_payloads :
    (∀ data : List Nat,
      ¬(68 ≤ data.length ∧ data.take 4 = transferSelector) →
      extractTransferAmount data = 0) ∧
    (∀ data : List Nat, 68 ≤ data.length → data.take 4 = transferSelector →
      extractTransferAmount data = bytesToNat ((data.drop 36).take 32)) ∧
    (∀ (s : SysState) (account token : Nat) (data : List Nat),
      ¬(68 ≤ data.length ∧ data.take 4 = transferSelector) →
      autoYieldUnstake s account token (extractTransferAmount data)
        = autoYieldUnstake s account token 0) ∧
    (∀ (s s1 : SysState) (account token : Nat),
      autoYieldUnstake s account token 0 = .ok s1 →
      s1.liquid account token
        ≤ max (s.liquid account token) (s.checkingThreshold account token)) := by
  have hext : ∀ data : List Nat,
      ¬(68 ≤ data.length ∧ data.take 4 = transferSelector) →
      extractTransferAmount data = 0 := by
    intro data hcond
    unfold extractTransferAmount
    rw [if_neg hcond]
  refine ⟨hext, ?_, ?_, ?_⟩
  · intro data h1 h2
    unfold extractTransferAmount
    rw [if_pos ⟨h1, h2⟩]
  · intro s account token data hcond
    rw [hext data hcond]
  · intro s s1 account token h
    simp only [autoYieldUnstake, getYieldBalance] at h
    split at h
    next hg =>
      split at h
      next hy =>
        have hamtle : (if s.yieldBal account (s.currentAdapter account token)
              < 0 + s.checkingThreshold account token
                - s.liquid account token then
            s.yieldBal account (s.currentAdapter account token)
          else 0 + s.checkingThreshold account token
            - s.liquid account token)
            ≤ s.checkingThreshold account token - s.liquid account token := by
          split <;> omega
        obtain ⟨hwpos, hwle, hwliq, hwyb, hwcfg⟩ := withdraw_ok h
        rw [hwliq]
        by_cases hk : token
            = s.asset (s.currentAdapter account token)
        · rw [← hk]
          rw [upd2_self]
          omega
        · have hne : ¬(account = account
              ∧ token = s.asset (s.currentAdapter account token)) :=
            fun hc => hk hc.2
          rw [upd2_ne _ _ hne]
          exact le_max_left _ _
      next hy =>
        injection h with hx
        rw [← hx]
        exact le_max_left _ _
    next hg =>
      injection h with hx
      rw [← hx]
      exact le_max_left _ _

/-- C10 (witness): the parsing theorem applied to a short payload and the
unstake bound applied to a concrete deficit state. -/
theorem extractTransferAmount_only_transfer_payloads_witness :
    extractTransferAmount [0, 1, 2] = 0 ∧
    (runOp (mkState 30 400) (fun s => autoYieldUnstake s 1 7 0)).liquid 1 7
      ≤ max ((mkState 30 400).liquid 1 7)
        ((mkState 30 400).checkingThreshold 1 7) :=
  ⟨extractTransferAmount_only_transfer_payloads.1 [0, 1, 2] (by decide),
   extractTransferAmount_only_transfer_payloads.2.2.2 (mkState 30 400)
     (runOp (mkState 30 400) (fun s => autoYieldUnstake s 1 7 0)) 1 7 rfl⟩

end Autopilot
